import Mathlib

/-!
Verification of the elk `BulkUdp` log handler (`src/elk/__init__.py`).

The development shallowly embeds the handler's field generator
(`BulkUdp._generate_fields`) and packet builder (`BulkUdp.emit`) in Lean.
Python strings are modelled as Lean `String`s; the source's size
bookkeeping uses `len` on `str`, which counts characters and is modelled by
`String.length`, while the datagram actually sent is `packet.encode()`,
whose byte count is modelled by `utf8Len`.  The two agree exactly on ASCII
packets: `json.dumps` output is ASCII under the default `ensure_ascii=True`
(proved below), but field keys are spliced into the packet raw, so a
non-ASCII attribute name makes the byte count exceed the character count.
Python expressions that may raise are modelled with `Except String`, the
error text standing for the exception.
-/

/-- A Python dictionary key as far as `json.dumps` is concerned: strings,
ints, bools and `None` are serialisable as keys; any other key type
(modelled by `kother`, carrying the Python type name) makes `json.dumps`
raise `TypeError` even when a `default=` fallback is supplied, because the
`default` hook is only consulted for values, not for keys. -/
inductive PyKey where
  | kstr (s : String)
  | kint (n : Int)
  | kbool (b : Bool)
  | knone
  | kother (typeName : String)
  deriving DecidableEq

mutual
/-- A Python value as seen by the handler: JSON-native values plus `pyObj`,
an arbitrary non-JSON-serialisable object carrying its `str()` form. -/
inductive PyVal where
  | pyStr (s : String)
  | pyInt (n : Int)
  | pyBool (b : Bool)
  | pyNone
  | pyList (xs : PyList)
  | pyDict (es : PyDict)
  | pyObj (strForm : String)
/-- A Python list of `PyVal`s. -/
inductive PyList where
  | nil
  | cons (v : PyVal) (rest : PyList)
/-- A Python dict, in insertion order. -/
inductive PyDict where
  | nil
  | cons (k : PyKey) (v : PyVal) (rest : PyDict)
end

/-- Lower-case hex digit, as produced by Python's json encoder. -/
def hexDigitChar (n : Nat) : Char :=
  if n < 10 then Char.ofNat (48 + n) else Char.ofNat (87 + n)

/-- A `\uXXXX` escape. -/
def uEscape (n : Nat) : String :=
  "\\u" ++ String.mk [hexDigitChar (n / 4096 % 16), hexDigitChar (n / 256 % 16),
                      hexDigitChar (n / 16 % 16), hexDigitChar (n % 16)]

/-- How Python's `json.dumps` (with the default `ensure_ascii=True`) renders
one character inside a string literal: printable ASCII other than `"` and
`\` is kept, the short escapes are used where they exist, every other
character becomes `\uXXXX` (a surrogate pair above the BMP). -/
def escapeChar (c : Char) : String :=
  if c = '"' then "\\\""
  else if c = '\\' then "\\\\"
  else if c = '\n' then "\\n"
  else if c = '\r' then "\\r"
  else if c = '\t' then "\\t"
  else if c = Char.ofNat 8 then "\\b"
  else if c = Char.ofNat 12 then "\\f"
  else if c.toNat < 32 then uEscape c.toNat
  else if c.toNat < 127 then String.singleton c
  else if c.toNat < 65536 then uEscape c.toNat
  else uEscape (55296 + (c.toNat - 65536) / 1024) ++ uEscape (56320 + (c.toNat - 65536) % 1024)

/-- `json.dumps` of a Python string. -/
def jsonQuote (s : String) : String :=
  "\"" ++ String.join (s.data.map escapeChar) ++ "\""

/-- How `json.dumps` renders a dict key: strings are quoted, ints, bools and
`None` are coerced to their JSON text wrapped in quotes, and any other key
type raises `TypeError` (the `default=` hook does not apply to keys). -/
def pyKeyJson : PyKey → Except String String
  | .kstr s => .ok (jsonQuote s)
  | .kint n => .ok ("\"" ++ toString n ++ "\"")
  | .kbool b => .ok (if b then "\"true\"" else "\"false\"")
  | .knone => .ok "\"null\""
  | .kother typeName =>
      .error ("TypeError: keys must be str, int, float, bool or None, not " ++ typeName)

mutual
/-- `json.dumps(value, default=str)` as called in `BulkUdp.emit` (line 73):
native JSON rendering with the default separators `", "` and `": "`; a
non-serialisable object falls back to its `str()` form (encoded as a JSON
string); a dict key of unsupported type still raises `TypeError`. -/
def pyJsonDumps : PyVal → Except String String
  | .pyStr s => .ok (jsonQuote s)
  | .pyInt n => .ok (toString n)
  | .pyBool b => .ok (if b then "true" else "false")
  | .pyNone => .ok "null"
  | .pyList xs => do
      let items ← pyJsonDumpsList xs
      .ok ("[" ++ String.intercalate ", " items ++ "]")
  | .pyDict es => do
      let items ← pyJsonDumpsDict es
      .ok ("\x7b" ++ String.intercalate ", " items ++ "\x7d")
  | .pyObj strForm => .ok (jsonQuote strForm)
/-- Serialise the elements of a Python list. -/
def pyJsonDumpsList : PyList → Except String (List String)
  | .nil => .ok []
  | .cons v rest => do
      let s ← pyJsonDumps v
      let r ← pyJsonDumpsList rest
      .ok (s :: r)
/-- Serialise the members of a Python dict, in insertion order. -/
def pyJsonDumpsDict : PyDict → Except String (List String)
  | .nil => .ok []
  | .cons k v rest => do
      let ks ← pyKeyJson k
      let vs ← pyJsonDumps v
      let r ← pyJsonDumpsDict rest
      .ok ((ks ++ ": " ++ vs) :: r)
end

/-- The handler configuration (`BulkUdp.__init__`); `host`, `port` and
`type` are never read by `emit`/`_generate_fields` and are omitted. -/
structure Config where
  max_packet_size : Int
  debugging_fields : Bool
  extra_fields : Bool
  fqdn : Bool
  localname : Option String
  service : String

/-- The parts of a `logging.LogRecord` read by the handler.  `getMessage`
is the rendered message string (`record.getMessage()`); `attrs` is
`record.__dict__` in insertion order; `created` is the creation time in
whole seconds since the epoch. -/
structure LogRecord where
  msg : PyVal
  getMessage : String
  levelno : Int
  created : Nat
  levelname : String
  name : String
  pathname : String
  lineno : Int
  funcName : String
  process : Option Int
  threadName : Option String
  processName : Option String
  attrs : List (String × PyVal)

/-- `SKIP_EXTRA_FIELDS` (lines 10-14 of the source, `msecs` listed twice
there as well). -/
def SKIP_EXTRA_FIELDS : List String :=
  ["args", "asctime", "created", "exc_info", "exc_text",
   "filename", "funcName", "id", "levelname", "levelno",
   "lineno", "module", "msecs", "msecs", "message",
   "msg", "name", "pathname", "process", "processName",
   "relativeCreated", "thread", "threadName"]

/-- Python's `str.startswith` on whole strings. -/
def pyStartsWith (s p : String) : Bool := p.data.isPrefixOf s.data

/-- Python truthiness of the optional `localname` string: `None` and the
empty string are falsy. -/
def truthyOptStr : Option String → Bool
  | none => false
  | some s => !(s == "")

/-- Gregorian leap year. -/
def isLeap (y : Nat) : Bool := y % 4 == 0 && (y % 100 != 0 || y % 400 == 0)

/-- Days in a year. -/
def daysInYear (y : Nat) : Nat := if isLeap y then 366 else 365

/-- Month lengths of a year. -/
def monthLengths (y : Nat) : List Nat :=
  [31, if isLeap y then 29 else 28, 31, 30, 31, 30, 31, 31, 30, 31, 30, 31]

/-- Convert a day count since 1970-01-01 into (year, day-of-year); the
first argument is recursion fuel (any value above the number of years
spanned, e.g. the day count itself plus one, is enough). -/
def yearFromDays : Nat → Nat → Nat → Nat × Nat
  | 0, y, d => (y, d)
  | fuel + 1, y, d =>
      if d < daysInYear y then (y, d) else yearFromDays fuel (y + 1) (d - daysInYear y)

/-- Convert a day-of-year into (month, day-of-month-minus-one). -/
def monthFromDays : List Nat → Nat → Nat → Nat × Nat
  | [], m, d => (m, d)
  | len :: rest, m, d => if d < len then (m, d) else monthFromDays rest (m + 1) (d - len)

/-- Zero-padded two-digit decimal. -/
def pad2 (n : Nat) : String := if n < 10 then "0" ++ toString n else toString n

/-- `datetime.datetime.utcfromtimestamp(secs).isoformat()` for a whole
number of seconds (no microsecond part, exactly as Python omits it when it
is zero). -/
def isoTimestamp (secs : Nat) : String :=
  let days := secs / 86400
  let rem := secs % 86400
  let yd := yearFromDays (days + 1) 1970 days
  let md := monthFromDays (monthLengths yd.1) 1 yd.2
  toString yd.1 ++ "-" ++ pad2 md.1 ++ "-" ++ pad2 (md.2 + 1) ++ "T" ++
    pad2 (rem / 3600) ++ ":" ++ pad2 (rem % 3600 / 60) ++ ":" ++ pad2 (rem % 60)

/-- Python `dict.get` for a string key. -/
def dictGet : PyDict → String → Option PyVal
  | .nil, _ => none
  | .cons k v rest, key => if k = PyKey.kstr key then some v else dictGet rest key

/-- `record.process` is an optional int. -/
def pyOfOptInt : Option Int → PyVal
  | some n => .pyInt n
  | none => .pyNone

/-- `record.threadName` is an optional string. -/
def pyOfOptStr : Option String → PyVal
  | some s => .pyStr s
  | none => .pyNone

/-- The debugging fields (lines 121-130): `file`, `line`, `_function`,
`_pid`, `_thread_name`, and `_process_name` only when the record carries a
process name. -/
def debuggingFieldsList (r : LogRecord) : List (String × PyVal) :=
  [("file", .pyStr r.pathname), ("line", .pyInt r.lineno),
   ("_function", .pyStr r.funcName), ("_pid", pyOfOptInt r.process),
   ("_thread_name", pyOfOptStr r.threadName)]
  ++ (match r.processName with
      | some pn => [("_process_name", PyVal.pyStr pn)]
      | none => [])

/-- The extra fields (lines 132-135): every `record.__dict__` attribute
whose name is neither in `SKIP_EXTRA_FIELDS` nor starts with `_`, with the
key prefixed by `_`. -/
def extraFields (r : LogRecord) : List (String × PyVal) :=
  (r.attrs.filter fun kv => !SKIP_EXTRA_FIELDS.contains kv.1 && !pyStartsWith kv.1 "_").map
    fun kv => ("_" ++ kv.1, kv.2)

/-- The `AttributeError` raised by line 109 of the source, which reads
`socket.localname`; the `socket` module has no attribute `localname` (the
evident intent was `self.localname`). -/
def socketLocalnameError : String :=
  "AttributeError: module 'socket' has no attribute 'localname'"

/-- The generator's local `fields` value (lines 96-98): the record's `msg`
when it is exactly a dict, else the empty dict. -/
def recFieldsVal (r : LogRecord) : PyVal :=
  match r.msg with
  | .pyDict es => .pyDict es
  | _ => .pyDict .nil

/-- The generator's local `message` value (lines 97-101): for a dict
message, `fields.get('message', record.getMessage())`; otherwise the
rendered message. -/
def recMessageVal (r : LogRecord) : PyVal :=
  match r.msg with
  | .pyDict es => (dictGet es "message").getD (.pyStr r.getMessage)
  | _ => .pyStr r.getMessage

/-- The fields yielded after `logsource` (lines 113-135): `severity`,
`@timestamp`, `level`, `name`, `service`, then the debugging fields when
enabled, then the extra fields when enabled. -/
def postLogsourceFields (cfg : Config) (r : LogRecord) : List (String × PyVal) :=
  [("severity", .pyInt r.levelno),
   ("@timestamp", .pyStr (isoTimestamp r.created ++ "Z")),
   ("level", .pyStr r.levelname),
   ("name", .pyStr r.name),
   ("service", .pyStr cfg.service)]
  ++ (if cfg.debugging_fields then debuggingFieldsList r else [])
  ++ (if cfg.extra_fields then extraFields r else [])

/-- `BulkUdp._generate_fields` (lines 93-135).  The generator is lazy, so
when the `localname` branch raises, the fields yielded before the faulting
`yield` are still produced; the result is the list of yielded fields paired
with the exception, if any, that terminates the iteration.  `fqdnName` and
`hostname` stand for `socket.getfqdn()` and `socket.gethostname()`. -/
def generateFields (cfg : Config) (r : LogRecord) (fqdnName hostname : String) :
    List (String × PyVal) × Option String :=
  let preLogsource : List (String × PyVal) :=
    [("@version", .pyStr "1"), ("@fields", recFieldsVal r), ("message", recMessageVal r)]
  if cfg.fqdn then
    (preLogsource ++ ("logsource", PyVal.pyStr fqdnName) :: postLogsourceFields cfg r, none)
  else if truthyOptStr cfg.localname then
    (preLogsource, some socketLocalnameError)
  else
    (preLogsource ++ ("logsource", PyVal.pyStr hostname) :: postLogsourceFields cfg r, none)

/-- The loop of `BulkUdp.emit` (lines 71-84), operating on the fields the
generator yields.  Returns the accumulated packet (without the closing
brace) and whether the loop exited by `break`; a serialisation exception is
propagated.  Exactly as in the source, `bytes_left` is computed before the
field is serialised, a field is committed when
`len(value_json) + len(key) + 5 < bytes_left` (with a leading comma unless
it is the first committed field), and otherwise the loop breaks when
`bytes_left < 16` and skips the field when not. -/
def emitLoop (mps : Int) (packet : String) (first : Bool) :
    List (String × PyVal) → Except String (String × Bool)
  | [] => .ok (packet, false)
  | (key, value) :: rest =>
    let bytesLeft : Int := mps - packet.length
    match pyJsonDumps value with
    | .error e => .error e
    | .ok value_json =>
      if ((value_json.length + key.length + 5 : Nat) : Int) < bytesLeft then
        if !first then
          emitLoop mps (packet ++ ",\"" ++ key ++ "\":" ++ value_json) false rest
        else
          emitLoop mps (packet ++ "\"" ++ key ++ "\":" ++ value_json) false rest
      else if bytesLeft < 16 then
        .ok (packet, true)
      else
        emitLoop mps packet first rest

/-- `BulkUdp.emit` (lines 57-91) up to the `send`: the packet starts as
`"\x7b"`, the loop consumes the generated fields, and `"\x7d\n"` is appended.  An
exception anywhere (a serialisation `TypeError`, or the generator's
`AttributeError`, which fires only when the loop runs off the end of the
yielded fields and asks the generator for more, i.e. not after `break`)
lands in the bare `except:` and is routed to `handleError`, so nothing is
sent: that outcome is the `.error` case. -/
def emit (cfg : Config) (r : LogRecord) (fqdnName hostname : String) :
    Except String String :=
  let gen := generateFields cfg r fqdnName hostname
  match emitLoop cfg.max_packet_size "\x7b" true gen.1 with
  | .error e => .error e
  | .ok (packet, broke) =>
    if broke then .ok (packet ++ "\x7d\n")
    else
      match gen.2 with
      | some e => .error e
      | none => .ok (packet ++ "\x7d\n")

/-- The packet text produced by the builder alone from an already-yielded
field list (the loop of `emit` plus the closing `"\x7d\n"`). -/
def buildPacket (mps : Int) (fields : List (String × PyVal)) : Except String String :=
  (emitLoop mps "\x7b" true fields).map fun pb => pb.1 ++ "\x7d\n"

/-- Spec §4.2: the JSON text of one committed member, `"key":value`. -/
def specMemberText (kv : String × String) : String := "\"" ++ kv.1 ++ "\":" ++ kv.2

/-- Spec §4.2: committed members are rendered with a leading comma exactly
when some field was committed before (the flag is `true` while no field has
been committed yet). -/
def specRenderMembers : Bool → List (String × String) → String
  | _, [] => ""
  | true, m :: ms => specMemberText m ++ specRenderMembers false ms
  | false, m :: ms => "," ++ specMemberText m ++ specRenderMembers false ms

/-- Spec §4.2, written from the spec's words as a selection of committed
fields: serialise the value, compute `bytes_left` from the current
accumulator length, commit the field exactly when its estimated cost
`len(key_json_text) + len(value_json_text) + 5` is strictly below
`bytes_left` (the spec's own gloss counts the key's two quotes inside the
5, so the key text is the bare key), stop when `bytes_left < 16`, and skip
the field otherwise.  Returns the committed `(key, value_json)` pairs and
whether generation was stopped early. -/
def specFieldSelection (mps : Int) : Nat → Bool → List (String × PyVal) →
    Except String (List (String × String) × Bool)
  | _, _, [] => .ok ([], false)
  | len, first, (key, value) :: rest =>
    match pyJsonDumps value with
    | .error e => .error e
    | .ok value_json =>
      let bytesLeft : Int := mps - len
      let cost : Nat := key.length + value_json.length + 5
      if (cost : Int) < bytesLeft then
        (specFieldSelection mps (len + (if first then cost - 2 else cost - 1)) false rest).map
          fun msb => ((key, value_json) :: msb.1, msb.2)
      else if bytesLeft < 16 then .ok ([], true)
      else specFieldSelection mps len first rest

/-- Spec §4.2: the packet is the opening brace, the rendered committed
members, and the closing `\x7d` plus newline. -/
def specBuild (mps : Int) (fields : List (String × PyVal)) : Except String String :=
  (specFieldSelection mps 1 true fields).map
    fun msb => "\x7b" ++ specRenderMembers true msb.1 ++ "\x7d\n"

/-- Spec §4.1 item 11, written from the spec's words: the extra fields are
the record attributes outside the reserved set and not underscore-private,
each emitted with its key prefixed by `_`, in attribute order. -/
def claimExtraSelection (attrs : List (String × PyVal)) : List (String × PyVal) :=
  attrs.filterMap fun kv =>
    if SKIP_EXTRA_FIELDS.contains kv.1 || pyStartsWith kv.1 "_" then none
    else some ("_" ++ kv.1, kv.2)

/-- The nine mandatory field keys, in their fixed order (spec §8). -/
def mandatoryKeys : List String :=
  ["@version", "@fields", "message", "logsource", "severity", "@timestamp",
   "level", "name", "service"]

/-- JSON whitespace. -/
def jsonWs (c : Char) : Bool := c == ' ' || c == '\n' || c == '\r' || c == '\t'

/-- Drop leading JSON whitespace. -/
def skipJsonWs : List Char → List Char
  | [] => []
  | c :: cs => if jsonWs c then skipJsonWs cs else c :: cs

/-- Hex digit (for `\uXXXX` escapes). -/
def isHexChar (c : Char) : Bool :=
  ('0' ≤ c && c ≤ '9') || ('a' ≤ c && c ≤ 'f') || ('A' ≤ c && c ≤ 'F')

/-- Decimal digit. -/
def isDigitChar (c : Char) : Bool := '0' ≤ c && c ≤ '9'

/-- Consume the rest of a JSON string literal (the opening quote already
consumed): ordinary characters above `0x1f`, short escapes, and `\uXXXX`. -/
def parseJsonStringRest : List Char → Option (List Char)
  | [] => none
  | '"' :: cs => some cs
  | '\\' :: 'u' :: a :: b :: c :: d :: cs =>
      if isHexChar a && isHexChar b && isHexChar c && isHexChar d then
        parseJsonStringRest cs
      else none
  | '\\' :: e :: cs =>
      if e == '"' || e == '\\' || e == '/' || e == 'b' || e == 'f' ||
         e == 'n' || e == 'r' || e == 't' then
        parseJsonStringRest cs
      else none
  | c :: cs => if c.toNat < 32 then none else parseJsonStringRest cs

/-- Consume a maximal run of digits, returning how many and the rest. -/
def takeDigits : List Char → Nat × List Char
  | [] => (0, [])
  | c :: cs =>
      if isDigitChar c then
        let r := takeDigits cs
        (r.1 + 1, r.2)
      else (0, c :: cs)

/-- The integer part of a JSON number: `0`, or a nonzero digit followed by
digits (no leading zeros). -/
def parseJsonIntPart : List Char → Option (List Char)
  | [] => none
  | c :: cs =>
      if c == '0' then
        match cs with
        | d :: _ => if isDigitChar d then none else some cs
        | [] => some cs
      else if isDigitChar c then some (takeDigits cs).2
      else none

/-- The optional fraction part of a JSON number. -/
def parseJsonFrac : List Char → Option (List Char)
  | '.' :: cs =>
      (match cs with
       | d :: _ => if isDigitChar d then some (takeDigits cs).2 else none
       | [] => none)
  | cs => some cs

/-- The optional exponent part of a JSON number. -/
def parseJsonExp : List Char → Option (List Char)
  | [] => some []
  | e :: cs =>
      if e == 'e' || e == 'E' then
        let cs2 := match cs with
          | s :: rest => if s == '+' || s == '-' then rest else s :: rest
          | [] => []
        match cs2 with
        | d :: _ => if isDigitChar d then some (takeDigits cs2).2 else none
        | [] => none
      else some (e :: cs)

/-- A JSON number. -/
def parseJsonNumber (cs : List Char) : Option (List Char) :=
  let cs1 := match cs with | '-' :: rest => rest | _ => cs
  match parseJsonIntPart cs1 with
  | none => none
  | some cs2 =>
    match parseJsonFrac cs2 with
    | none => none
    | some cs3 => parseJsonExp cs3

mutual
/-- Recursive-descent check of one JSON value (fuel-bounded; any fuel above
twice the remaining input length is enough, since every recursive call
either consumes input or descends into it). -/
def parseJsonValue : Nat → List Char → Option (List Char)
  | 0, _ => none
  | fuel + 1, cs =>
    match cs with
    | '"' :: rest => parseJsonStringRest rest
    | '{' :: rest => parseJsonMembersFirst fuel (skipJsonWs rest)
    | '[' :: rest => parseJsonElementsFirst fuel (skipJsonWs rest)
    | 't' :: 'r' :: 'u' :: 'e' :: rest => some rest
    | 'f' :: 'a' :: 'l' :: 's' :: 'e' :: rest => some rest
    | 'n' :: 'u' :: 'l' :: 'l' :: rest => some rest
    | c :: rest =>
        if c == '-' || isDigitChar c then parseJsonNumber (c :: rest) else none
    | [] => none
/-- After `\x7b` and whitespace: either the empty object or its members. -/
def parseJsonMembersFirst : Nat → List Char → Option (List Char)
  | 0, _ => none
  | fuel + 1, cs =>
    match cs with
    | '}' :: rest => some rest
    | _ => parseJsonMember fuel cs
/-- One `"key" : value` member followed by `,` and further members or the
closing brace. -/
def parseJsonMember : Nat → List Char → Option (List Char)
  | 0, _ => none
  | fuel + 1, cs =>
    match cs with
    | '"' :: rest =>
      (match parseJsonStringRest rest with
       | none => none
       | some afterKey =>
         match skipJsonWs afterKey with
         | ':' :: afterColon =>
           (match parseJsonValue fuel (skipJsonWs afterColon) with
            | none => none
            | some afterVal =>
              match skipJsonWs afterVal with
              | ',' :: rest2 => parseJsonMember fuel (skipJsonWs rest2)
              | '}' :: rest2 => some rest2
              | _ => none)
         | _ => none)
    | _ => none
/-- After `[` and whitespace: either the empty array or its elements. -/
def parseJsonElementsFirst : Nat → List Char → Option (List Char)
  | 0, _ => none
  | fuel + 1, cs =>
    match cs with
    | ']' :: rest => some rest
    | _ => parseJsonElement fuel cs
/-- One array element followed by `,` and further elements or `]`. -/
def parseJsonElement : Nat → List Char → Option (List Char)
  | 0, _ => none
  | fuel + 1, cs =>
    match parseJsonValue fuel cs with
    | none => none
    | some afterVal =>
      match skipJsonWs afterVal with
      | ',' :: rest => parseJsonElement fuel (skipJsonWs rest)
      | ']' :: rest => some rest
      | _ => none
end

/-- A string is a syntactically valid JSON document when one JSON value,
surrounded by optional whitespace, spans it exactly. -/
def jsonTextOk (s : String) : Bool :=
  match parseJsonValue (2 * s.data.length + 8) (skipJsonWs s.data) with
  | some rest => (skipJsonWs rest).isEmpty
  | none => false

/-- An ASCII character (code point below 128). -/
def isAsciiChar (c : Char) : Bool := c.toNat < 128

/-- A string all of whose characters are ASCII.  For such strings the
character count and the UTF-8 byte count coincide. -/
def isAsciiStr (s : String) : Bool := s.data.all isAsciiChar

/-- The number of bytes one character occupies in UTF-8. -/
def utf8CharSize (c : Char) : Nat :=
  if c.toNat < 128 then 1
  else if c.toNat < 2048 then 2
  else if c.toNat < 65536 then 3
  else 4

/-- The byte length of the Python `packet.encode()` datagram: the UTF-8
size of the string.  The source's own bookkeeping uses `len(packet)`,
which counts characters, so the two differ on non-ASCII packets. -/
def utf8Len (s : String) : Nat := (s.data.map utf8CharSize).sum

/-- A representative log record: `logging.getLogger("root").info("hi")` at
the epoch, with a slice of the standard `__dict__` attributes (all of them
reserved). -/
def recBase : LogRecord :=
  { msg := .pyStr "hi", getMessage := "hi", levelno := 20, created := 0,
    levelname := "INFO", name := "root", pathname := "app.py", lineno := 1,
    funcName := "f", process := some 11, threadName := some "MainThread",
    processName := some "MainProcess",
    attrs := [("name", .pyStr "root"), ("msg", .pyStr "hi"), ("levelno", .pyInt 20)] }

/-- The default handler configuration apart from a 1 KiB packet budget. -/
def cfgBase : Config :=
  { max_packet_size := 1024, debugging_fields := false, extra_fields := true,
    fqdn := false, localname := none, service := "logstash" }

/-- The packet `emit` produces from `recBase` when one extra attribute is
named `a"b`: the attribute name is spliced into the packet unescaped, so
the document contains `"_a"b":1` and is not valid JSON. -/
def quoteKeyPacket : String :=
  "\x7b\"@version\":\"1\",\"@fields\":\x7b\x7d,\"message\":\"hi\",\"logsource\":\"myhost\",\"severity\":20,\"@timestamp\":\"1970-01-01T00:00:00Z\",\"level\":\"INFO\",\"name\":\"root\",\"service\":\"logstash\",\"_a\"b\":1\x7d\n"

/-- The packet `emit` produces from `recBase` with `max_packet_size = 173`
when one extra attribute is named `é`: the key is spliced raw, so the
packet has 173 characters — `len(packet)` stays within the budget — but
its UTF-8 encoding, the datagram Python actually sends, is 174 bytes. -/
def nonAsciiKeyPacket : String :=
  "\x7b\"@version\":\"1\",\"@fields\":\x7b\x7d,\"message\":\"hi\",\"logsource\":\"myhost\",\"severity\":20,\"@timestamp\":\"1970-01-01T00:00:00Z\",\"level\":\"INFO\",\"name\":\"root\",\"service\":\"logstash\",\"_é\":1\x7d\n"

/-- Unfolding of `emit` into its loop, break flag, and generator error. -/
theorem emit_eq (cfg : Config) (r : LogRecord) (fqdnName hostname : String) :
    emit cfg r fqdnName hostname =
      match emitLoop cfg.max_packet_size "\x7b" true
          (generateFields cfg r fqdnName hostname).1 with
      | .error e => .error e
      | .ok (packet, broke) =>
        if broke then .ok (packet ++ "\x7d\n")
        else
          match (generateFields cfg r fqdnName hostname).2 with
          | some e => .error e
          | none => .ok (packet ++ "\x7d\n") := rfl

/-- Throughout the loop, if the accumulator leaves two bytes of room for
the closing brace and newline, it still does whenever the loop returns. -/
theorem emitLoop_length_le (mps : Int) (fields : List (String × PyVal)) :
    ∀ (packet : String) (first : Bool),
      (packet.length : Int) + 2 ≤ mps →
      ∀ p b, emitLoop mps packet first fields = .ok (p, b) →
        (p.length : Int) + 2 ≤ mps := by
  induction fields with
  | nil =>
    intro packet first h p b heq
    simp only [emitLoop] at heq
    cases heq
    exact h
  | cons hd tl ih =>
    intro packet first h p b heq
    obtain ⟨key, value⟩ := hd
    cases hdump : pyJsonDumps value with
    | error e => simp [emitLoop, hdump] at heq
    | ok vj =>
      simp only [emitLoop, hdump] at heq
      split at heq
      case isTrue hc =>
        cases first with
        | true =>
          simp only [Bool.not_true, Bool.false_eq_true, if_false] at heq
          refine ih _ false ?_ p b heq
          have e1 : ("\"" : String).length = 1 := rfl
          have e2 : ("\":" : String).length = 2 := rfl
          simp only [String.length_append, e1, e2]
          push_cast at hc ⊢
          omega
        | false =>
          simp only [Bool.not_false, if_true] at heq
          refine ih _ false ?_ p b heq
          have e2 : ("\":" : String).length = 2 := rfl
          have e3 : (",\"" : String).length = 2 := rfl
          simp only [String.length_append, e2, e3]
          push_cast at hc ⊢
          omega
      case isFalse hc =>
        split at heq
        · cases heq
          exact h
        · exact ih _ _ h p b heq

/-- Mapping twice over an `Except` is mapping the composition. -/
theorem except_map_map {ε α β γ : Type} (f : β → γ) (g : α → β) (x : Except ε α) :
    Except.map f (Except.map g x) = Except.map (fun a => f (g a)) x := by
  cases x <;> rfl

/-- The builder loop refines the spec's member selection: running the loop
from any accumulator equals selecting the committed members by length
bookkeeping alone and rendering them after the accumulator, with a comma
before every member except a first one. -/
theorem emitLoop_eq_spec (mps : Int) (fields : List (String × PyVal)) :
    ∀ (packet : String) (first : Bool),
      emitLoop mps packet first fields =
        (specFieldSelection mps packet.length first fields).map
          fun msb => (packet ++ specRenderMembers first msb.1, msb.2) := by
  induction fields with
  | nil =>
    intro packet first
    simp [emitLoop, specFieldSelection, specRenderMembers, Except.map, String.append_empty]
  | cons hd tl ih =>
    intro packet first
    obtain ⟨key, value⟩ := hd
    cases hdump : pyJsonDumps value with
    | error e => simp [emitLoop, specFieldSelection, hdump, Except.map]
    | ok vj =>
      simp only [emitLoop, specFieldSelection, hdump]
      by_cases hc : ((vj.length + key.length + 5 : Nat) : Int) < mps - (packet.length : Int)
      · have hc2 : ((key.length + vj.length + 5 : Nat) : Int) < mps - (packet.length : Int) := by
          push_cast at hc ⊢
          omega
        rw [if_pos hc, if_pos hc2]
        cases first with
        | true =>
          simp only [Bool.not_true, Bool.false_eq_true, if_false, if_true]
          rw [ih]
          have hlen : (packet ++ "\"" ++ key ++ "\":" ++ vj).length
              = packet.length + (key.length + vj.length + 5 - 2) := by
            have e1 : ("\"" : String).length = 1 := rfl
            have e2 : ("\":" : String).length = 2 := rfl
            simp only [String.length_append, e1, e2]
            omega
          rw [hlen]
          cases hsel : specFieldSelection mps
              (packet.length + (key.length + vj.length + 5 - 2)) false tl with
          | error e => simp [Except.map]
          | ok msb =>
            simp only [Except.map]
            congr 1
            simp [specRenderMembers, specMemberText, String.append_assoc]
        | false =>
          simp only [Bool.not_false, if_true, if_false]
          rw [ih, except_map_map]
          have e2 : ("\":" : String).length = 2 := rfl
          have e3 : (",\"" : String).length = 2 := rfl
          congr 1
          · funext msb
            simp only [specRenderMembers, specMemberText]
            rw [Prod.mk.injEq]
            refine ⟨?_, rfl⟩
            apply String.ext
            simp [String.data_append, show (",\"" : String).data = [',', '"'] from rfl,
                  show ("\"" : String).data = ['"'] from rfl,
                  show ("\":" : String).data = ['"', ':'] from rfl,
                  show ("," : String).data = [','] from rfl]
          · congr 1
            simp only [String.length_append, e2, e3, Bool.false_eq_true, if_false, if_true]
            omega
      · have hc2 : ¬ ((key.length + vj.length + 5 : Nat) : Int) < mps - (packet.length : Int) := by
          push_cast at hc ⊢
          omega
        rw [if_neg hc, if_neg hc2]
        by_cases hb : mps - (packet.length : Int) < 16
        · rw [if_pos hb, if_pos hb]
          simp [Except.map, specRenderMembers, String.append_empty]
        · rw [if_neg hb, if_neg hb]
          exact ih packet first

/-- C4: the packet builder commits a field exactly when the spec's
estimated cost `len(key) + len(value_json) + 5` is strictly below
`bytes_left` (the spec's parenthetical counts the key's two quotes, the
colon, the separator-or-terminator and the brace allowance inside the 5, so
the key text is the bare key), and a committed field carries a leading
comma exactly when some field was committed before it: the builder's output
equals the spec-side selection-and-render construction. -/
theorem C4_commit_rule_refinement (mps : Int) (fields : List (String × PyVal)) :
    buildPacket mps fields = specBuild mps fields := by
  unfold buildPacket specBuild
  rw [emitLoop_eq_spec]
  have e1 : ("\x7b" : String).length = 1 := rfl
  rw [e1]
  cases hsel : specFieldSelection mps 1 true fields with
  | error e => simp [Except.map]
  | ok msb => simp [Except.map, String.append_assoc]

/-- C5: when a field fails the commit test, the loop stops outright
(ignoring every remaining field) exactly when `bytes_left < 16`, and
otherwise skips just that field and continues with the rest. -/
theorem C5_stop_or_skip (mps : Int) (packet : String) (first : Bool) (key : String)
    (value : PyVal) (value_json : String)
    (hdump : pyJsonDumps value = .ok value_json)
    (hfail : ¬ ((value_json.length + key.length + 5 : Nat) : Int)
        < mps - (packet.length : Int)) :
    (mps - (packet.length : Int) < 16 →
      ∀ rest, emitLoop mps packet first ((key, value) :: rest) = .ok (packet, true)) ∧
    (16 ≤ mps - (packet.length : Int) →
      ∀ rest, emitLoop mps packet first ((key, value) :: rest)
        = emitLoop mps packet first rest) := by
  constructor
  · intro h rest
    simp only [emitLoop, hdump]
    rw [if_neg hfail, if_pos h]
  · intro h rest
    simp only [emitLoop, hdump]
    rw [if_neg hfail, if_neg (by omega)]

/-- C5 witness: with a 5-byte budget (`bytes_left = 4 < 16`) a failing
field stops the loop; with a 30-byte budget (`bytes_left = 29 ≥ 16`) an
oversized field is skipped and the next field is still processed. -/
theorem C5_witness :
    emitLoop 5 "\x7b" true [("key", PyVal.pyStr "woof")] = .ok ("\x7b", true) ∧
    emitLoop 30 "\x7b" true
        [("averylongkeyxxxxxxxxxxxxxxxxxxxxxx", PyVal.pyStr "v"), ("k", PyVal.pyStr "v")]
      = emitLoop 30 "\x7b" true [("k", PyVal.pyStr "v")] :=
  ⟨(C5_stop_or_skip 5 "\x7b" true "key" (PyVal.pyStr "woof") "\"woof\"" rfl
      (by decide)).1 (by decide) [],
   (C5_stop_or_skip 30 "\x7b" true "averylongkeyxxxxxxxxxxxxxxxxxxxxxx"
      (PyVal.pyStr "v") "\"v\"" rfl (by decide)).2 (by decide) [("k", PyVal.pyStr "v")]⟩

/-- C6 (amended): when `fqdn` is set or `localname` is unset/empty — i.e.
whenever the generator does not hit the `socket.localname` fault — the
nine mandatory keys come first, in their fixed order, before any debugging
or extra field, and with both `debugging_fields` and `extra_fields`
disabled the generator yields exactly those nine fields.  The original
claim quantified over every configuration; with `localname` set the
generator raises after three fields, see the counterexample. -/
theorem C6_mandatory_order (cfg : Config) (r : LogRecord) (fqdnName hostname : String)
    (h : cfg.fqdn = true ∨ truthyOptStr cfg.localname = false) :
    (∃ rest, (generateFields cfg r fqdnName hostname).1.map Prod.fst
        = mandatoryKeys ++ rest) ∧
    (cfg.debugging_fields = false → cfg.extra_fields = false →
      (generateFields cfg r fqdnName hostname).1.map Prod.fst = mandatoryKeys) := by
  by_cases hf : cfg.fqdn = true
  · constructor
    · refine ⟨((if cfg.debugging_fields then debuggingFieldsList r else []) ++
        (if cfg.extra_fields then extraFields r else [])).map Prod.fst, ?_⟩
      simp [generateFields, postLogsourceFields, hf, mandatoryKeys]
    · intro hd he
      simp [generateFields, postLogsourceFields, hf, hd, he, mandatoryKeys]
  · have hl : truthyOptStr cfg.localname = false := by
      rcases h with h | h
      · exact absurd h hf
      · exact h
    constructor
    · refine ⟨((if cfg.debugging_fields then debuggingFieldsList r else []) ++
        (if cfg.extra_fields then extraFields r else [])).map Prod.fst, ?_⟩
      simp [generateFields, postLogsourceFields, hf, hl, mandatoryKeys]
    · intro hd he
      simp [generateFields, postLogsourceFields, hf, hl, hd, he, mandatoryKeys]

/-- C6 witness: with `fqdn` false, `localname` unset and both optional
groups disabled, the generator yields exactly the nine mandatory keys. -/
theorem C6_witness :
    (generateFields { cfgBase with extra_fields := false } recBase "fq.example.com"
        "myhost").1.map Prod.fst = mandatoryKeys :=
  (C6_mandatory_order { cfgBase with extra_fields := false } recBase "fq.example.com"
    "myhost" (Or.inr rfl)).2 rfl rfl

/-- C6 counterexample: with `localname` configured the generator yields
only `@version`, `@fields` and `message` and then raises the
`socket.localname` `AttributeError`; the nine mandatory fields are not
produced, refuting the claim's quantification over every configuration. -/
theorem C6_counterexample :
    ((generateFields { cfgBase with localname := some "myhost" } recBase "fq.example.com"
        "shorthost").1.map Prod.fst = ["@version", "@fields", "message"]) ∧
    ((generateFields { cfgBase with localname := some "myhost" } recBase "fq.example.com"
        "shorthost").2 = some socketLocalnameError) ∧
    ¬ ∃ rest, (generateFields { cfgBase with localname := some "myhost" } recBase
        "fq.example.com" "shorthost").1.map Prod.fst = mandatoryKeys ++ rest := by
  refine ⟨rfl, rfl, ?_⟩
  rintro ⟨rest, hre⟩
  rw [show (generateFields { cfgBase with localname := some "myhost" } recBase
      "fq.example.com" "shorthost").1.map Prod.fst = ["@version", "@fields", "message"]
      from rfl] at hre
  have hlen : (3 : Nat) = 9 + rest.length := by
    simpa [mandatoryKeys] using congrArg List.length hre
  omega

/-- The generated field list always starts with `@version`, the `@fields`
value and the `message` value, whatever the configuration. -/
theorem generateFields_shape (cfg : Config) (r : LogRecord) (fqdnName hostname : String) :
    ∃ rest, (generateFields cfg r fqdnName hostname).1 =
      ("@version", PyVal.pyStr "1") :: ("@fields", recFieldsVal r) ::
      ("message", recMessageVal r) :: rest := by
  by_cases hf : cfg.fqdn = true
  · refine ⟨("logsource", PyVal.pyStr fqdnName) :: postLogsourceFields cfg r, ?_⟩
    simp [generateFields, hf]
  · by_cases hl : truthyOptStr cfg.localname = true
    · refine ⟨[], ?_⟩
      simp [generateFields, hf, hl]
    · refine ⟨("logsource", PyVal.pyStr hostname) :: postLogsourceFields cfg r, ?_⟩
      simp [generateFields, hf, hl]

/-- C7: when the record's message is a mapping, the generated `@fields`
value is that full mapping and the `message` value is the mapping's
`"message"` entry when present (else the rendered message string); when
the message is not a mapping, `@fields` is the empty mapping and `message`
is the rendered message string.  These are always the second and third
yielded fields, after `@version`. -/
theorem C7_fields_and_message (cfg : Config) (r : LogRecord) (fqdnName hostname : String) :
    (∀ es, r.msg = PyVal.pyDict es →
      ∃ rest, (generateFields cfg r fqdnName hostname).1 =
        ("@version", PyVal.pyStr "1") :: ("@fields", PyVal.pyDict es) ::
        ("message", (dictGet es "message").getD (PyVal.pyStr r.getMessage)) :: rest) ∧
    ((∀ es, r.msg ≠ PyVal.pyDict es) →
      ∃ rest, (generateFields cfg r fqdnName hostname).1 =
        ("@version", PyVal.pyStr "1") :: ("@fields", PyVal.pyDict PyDict.nil) ::
        ("message", PyVal.pyStr r.getMessage) :: rest) := by
  constructor
  · intro es hes
    obtain ⟨rest, hsh⟩ := generateFields_shape cfg r fqdnName hostname
    refine ⟨rest, ?_⟩
    rw [hsh]
    have h1 : recFieldsVal r = PyVal.pyDict es := by
      rw [recFieldsVal, hes]
    have h2 : recMessageVal r = (dictGet es "message").getD (PyVal.pyStr r.getMessage) := by
      rw [recMessageVal, hes]
    rw [h1, h2]
  · intro hne
    obtain ⟨rest, hsh⟩ := generateFields_shape cfg r fqdnName hostname
    refine ⟨rest, ?_⟩
    rw [hsh]
    have h1 : recFieldsVal r = PyVal.pyDict PyDict.nil := by
      rw [recFieldsVal]
      cases hmsg : r.msg
      case pyDict es => exact absurd hmsg (hne es)
      all_goals rfl
    have h2 : recMessageVal r = PyVal.pyStr r.getMessage := by
      rw [recMessageVal]
      cases hmsg : r.msg
      case pyDict es => exact absurd hmsg (hne es)
      all_goals rfl
    rw [h1, h2]

/-- C7 witness: for the mapping message from the spec's example,
`message` is `"hello"` and `@fields` is the full mapping including
`code`. -/
theorem C7_witness :
    ∃ rest, (generateFields cfgBase
        { recBase with msg := PyVal.pyDict (PyDict.cons (PyKey.kstr "message")
            (PyVal.pyStr "hello") (PyDict.cons (PyKey.kstr "code") (PyVal.pyInt 7)
              PyDict.nil)) } "fq.example.com" "myhost").1 =
      ("@version", PyVal.pyStr "1") ::
      ("@fields", PyVal.pyDict (PyDict.cons (PyKey.kstr "message") (PyVal.pyStr "hello")
          (PyDict.cons (PyKey.kstr "code") (PyVal.pyInt 7) PyDict.nil))) ::
      ("message", PyVal.pyStr "hello") :: rest :=
  (C7_fields_and_message cfgBase
    { recBase with msg := PyVal.pyDict (PyDict.cons (PyKey.kstr "message")
        (PyVal.pyStr "hello") (PyDict.cons (PyKey.kstr "code") (PyVal.pyInt 7)
          PyDict.nil)) } "fq.example.com" "myhost").1 _ rfl

/-- Prefixing with an underscore is injective. -/
theorem underscore_append_inj {a b : String} (h : ("_" ++ a : String) = "_" ++ b) :
    a = b := by
  have hd := congrArg String.data h
  rw [String.data_append, String.data_append] at hd
  exact String.ext (List.append_cancel_left hd)

/-- An underscore-prefixed string starts with an underscore. -/
theorem pyStartsWith_underscore (s : String) : pyStartsWith ("_" ++ s) "_" = true := by
  simp [pyStartsWith, String.data_append, show ("_" : String).data = ['_'] from rfl,
    List.isPrefixOf]

/-- Filtering then underscore-prefixing is the spec's one-pass selection. -/
theorem extraFields_eq_claim (l : List (String × PyVal)) :
    (l.filter fun kv => !SKIP_EXTRA_FIELDS.contains kv.1 && !pyStartsWith kv.1 "_").map
        (fun kv => (("_" ++ kv.1 : String), kv.2)) = claimExtraSelection l := by
  induction l with
  | nil => rfl
  | cons hd tl ih =>
    rw [claimExtraSelection, List.filterMap_cons, List.filter_cons]
    by_cases h1 : SKIP_EXTRA_FIELDS.contains hd.1 <;>
      by_cases h2 : pyStartsWith hd.1 "_" <;>
        simp_all [claimExtraSelection]

/-- C8: with `extra_fields` enabled, every record attribute outside the
reserved set whose name does not start with `_` is emitted exactly once as
an extra field, prefixed by `_`, with its original value; the bare
attribute name never appears among the extra-field keys; reserved or
underscore-private attributes yield no extra field; and the extra fields
follow the record's own attribute order (they equal the spec's one-pass
selection over the attribute list). -/
theorem C8_extra_field_emission (r : LogRecord)
    (hnodup : (r.attrs.map Prod.fst).Nodup) (key : String) (value : PyVal)
    (hmem : (key, value) ∈ r.attrs)
    (hskip : SKIP_EXTRA_FIELDS.contains key = false)
    (hund : pyStartsWith key "_" = false) :
    (("_" ++ key, value) ∈ extraFields r) ∧
    (((extraFields r).map Prod.fst).count ("_" ++ key) = 1) ∧
    (key ∉ (extraFields r).map Prod.fst) ∧
    (∀ k2 v2, (k2, v2) ∈ r.attrs →
        (SKIP_EXTRA_FIELDS.contains k2 || pyStartsWith k2 "_") = true →
        ("_" ++ k2, v2) ∉ extraFields r) ∧
    (extraFields r = claimExtraSelection r.attrs) := by
  have hP : (!SKIP_EXTRA_FIELDS.contains key && !pyStartsWith key "_") = true := by
    rw [hskip, hund]
    rfl
  have hmf : (key, value) ∈ r.attrs.filter
      (fun kv => !SKIP_EXTRA_FIELDS.contains kv.1 && !pyStartsWith kv.1 "_") :=
    List.mem_filter.2 ⟨hmem, hP⟩
  have hkeys : (extraFields r).map Prod.fst =
      (r.attrs.filter (fun kv => !SKIP_EXTRA_FIELDS.contains kv.1 &&
          !pyStartsWith kv.1 "_")).map (fun kv => ("_" ++ kv.1 : String)) := by
    rw [extraFields, List.map_map]
    rfl
  have hnd1 : ((r.attrs.filter (fun kv => !SKIP_EXTRA_FIELDS.contains kv.1 &&
      !pyStartsWith kv.1 "_")).map Prod.fst).Nodup :=
    List.Nodup.sublist (List.Sublist.map _ (List.filter_sublist _)) hnodup
  have hnd2 : ((r.attrs.filter (fun kv => !SKIP_EXTRA_FIELDS.contains kv.1 &&
      !pyStartsWith kv.1 "_")).map (fun kv => ("_" ++ kv.1 : String))).Nodup := by
    rw [show (fun kv : String × PyVal => ("_" ++ kv.1 : String)) =
        (fun s => "_" ++ s) ∘ Prod.fst from rfl, ← List.map_map]
    exact List.Nodup.map (fun a b hab => underscore_append_inj hab) hnd1
  refine ⟨List.mem_map_of_mem _ hmf, ?_, ?_, ?_, ?_⟩
  · rw [hkeys]
    exact List.count_eq_one_of_mem hnd2 (List.mem_map_of_mem _ hmf)
  · intro hk
    rw [hkeys] at hk
    obtain ⟨kv, hkvf, hkeq⟩ := List.mem_map.1 hk
    have hsw := pyStartsWith_underscore kv.1
    rw [hkeq, hund] at hsw
    exact Bool.noConfusion hsw
  · intro k2 v2 hm2 hbad hcontra
    obtain ⟨kv, hkvf, hkeq⟩ := List.mem_map.1 hcontra
    have hP2 := (List.mem_filter.1 hkvf).2
    have hk12 : kv.1 = k2 := underscore_append_inj (congrArg Prod.fst hkeq)
    rw [hk12] at hP2
    rcases Bool.or_eq_true_iff.1 hbad with h | h <;> rw [h] at hP2 <;> simp at hP2
  · rw [extraFields]
    exact extraFields_eq_claim r.attrs

/-- C8 witness: an attribute `user_id = 42` yields exactly one `_user_id`
extra field and no bare `user_id` key. -/
theorem C8_witness :
    ("_user_id", PyVal.pyInt 42) ∈
        extraFields { recBase with attrs := recBase.attrs ++ [("user_id", PyVal.pyInt 42)] } ∧
    ((extraFields { recBase with
        attrs := recBase.attrs ++ [("user_id", PyVal.pyInt 42)] }).map Prod.fst).count
      "_user_id" = 1 ∧
    "user_id" ∉ (extraFields { recBase with
        attrs := recBase.attrs ++ [("user_id", PyVal.pyInt 42)] }).map Prod.fst := by
  have h := C8_extra_field_emission
    { recBase with attrs := recBase.attrs ++ [("user_id", PyVal.pyInt 42)] }
    (by decide) "user_id" (PyVal.pyInt 42)
    (List.mem_append_right _ (List.mem_singleton.2 rfl)) rfl rfl
  exact ⟨h.1, h.2.1, h.2.2.1⟩

set_option maxRecDepth 100000 in
/-- C9 (code bug): `json.dumps(value, default=str)` still raises
`TypeError` when a dict value carries a key that is not a str, int, float,
bool or None (the `default` fallback is not applied to keys), so `emit`
aborts through its error handler and sends nothing, contradicting the
claim that serialisation never raises.  Here the record carries an extra
attribute whose value is a dict with a tuple key. -/
theorem C9_dumps_typeerror :
    pyJsonDumps (PyVal.pyDict (PyDict.cons (PyKey.kother "tuple") (PyVal.pyInt 3)
        PyDict.nil)) =
      .error "TypeError: keys must be str, int, float, bool or None, not tuple" ∧
    emit cfgBase
        { recBase with attrs := recBase.attrs ++
            [("bad", PyVal.pyDict (PyDict.cons (PyKey.kother "tuple") (PyVal.pyInt 3)
              PyDict.nil))] } "fq.example.com" "myhost" =
      .error "TypeError: keys must be str, int, float, bool or None, not tuple" :=
  ⟨rfl, rfl⟩

set_option maxRecDepth 40000 in
/-- C10: with `debugging_fields` and `extra_fields` both enabled and a
record carrying a caller-supplied attribute named `pid`, the generator
yields the key `_pid` twice — once as a debugging field and once as an
underscore-prefixed extra field — so one packet can contain two members
with the same key. -/
theorem C10_duplicate_pid_key :
    (((generateFields { cfgBase with debugging_fields := true }
        { recBase with attrs := recBase.attrs ++ [("pid", PyVal.pyInt 4)] }
        "fq.example.com" "myhost").1.map Prod.fst).count "_pid") = 2 := by
  decide

/-- C3 (code bug): with `fqdn` unset and `localname` configured, line 109
of the source evaluates `socket.localname`, which does not exist (the
intent was `self.localname`), so `emit` raises `AttributeError`, falls
into its error handler and sends nothing, instead of emitting a packet
whose `logsource` is the configured localname. -/
theorem C3_localname_attribute_error :
    emit { cfgBase with localname := some "myhost" } recBase "fq.example.com" "shorthost"
        = .error socketLocalnameError ∧
    socketLocalnameError = "AttributeError: module 'socket' has no attribute 'localname'" :=
  ⟨rfl, rfl⟩

set_option maxRecDepth 100000 in
/-- C2 (code bug): field keys are spliced into the packet with `%s` and
never JSON-escaped, so a record attribute named `a"b` (legal in Python's
`extra=` mechanism) produces a packet containing `"_a"b":1` that is not
syntactically valid JSON, contradicting the claim that the builder never
emits an invalid document. -/
theorem C2_unescaped_key_invalid_json :
    emit cfgBase { recBase with attrs := recBase.attrs ++ [("a\"b", PyVal.pyInt 1)] }
        "fq.example.com" "myhost" = .ok quoteKeyPacket ∧
    jsonTextOk quoteKeyPacket = false :=
  ⟨rfl, by decide⟩

set_option maxRecDepth 100000 in
/-- Sanity check of the JSON validity checker on a well-formed document of
the same shape as the emitted packets. -/
theorem jsonTextOk_accepts_sample :
    jsonTextOk "\x7b\"@version\":\"1\",\"@fields\":\x7b\x7d,\"message\":\"hi\",\"severity\":20,\"xs\":[1.5e3, true, null, \"x\\u00e9\"]\x7d\n" = true := by
  decide

/-- Byte length distributes over append. -/
theorem utf8Len_append (a b : String) : utf8Len (a ++ b) = utf8Len a + utf8Len b := by
  simp [utf8Len, String.data_append]

/-- ASCII-ness distributes over append. -/
theorem isAsciiStr_append (a b : String) :
    isAsciiStr (a ++ b) = (isAsciiStr a && isAsciiStr b) := by
  simp [isAsciiStr, String.data_append, List.all_append]

/-- On an ASCII character list the UTF-8 sizes sum to the length. -/
theorem sum_utf8_of_ascii :
    ∀ l : List Char, l.all isAsciiChar = true → (l.map utf8CharSize).sum = l.length := by
  intro l
  induction l with
  | nil => intro _; rfl
  | cons c cs ih =>
    intro h
    rw [List.all_cons, Bool.and_eq_true] at h
    have hlt : c.toNat < 128 := by
      have := h.1
      simpa [isAsciiChar] using this
    have hc : utf8CharSize c = 1 := by
      unfold utf8CharSize
      rw [if_pos hlt]
    rw [List.map_cons, List.sum_cons, hc, ih h.2, List.length_cons]
    omega

/-- On an ASCII string the byte length equals the character count. -/
theorem utf8Len_of_ascii {s : String} (h : isAsciiStr s = true) : utf8Len s = s.length := by
  rw [utf8Len, sum_utf8_of_ascii s.data h]
  rfl

/-- `String.mk` exposes its character list to `isAsciiStr`. -/
theorem isAsciiStr_mk (l : List Char) : isAsciiStr (String.mk l) = l.all isAsciiChar := rfl

/-- Hex digits are ASCII. -/
theorem hexDigitChar_ascii {n : Nat} (h : n < 16) : isAsciiChar (hexDigitChar n) = true := by
  interval_cases n <;> decide

/-- Unicode escapes are ASCII. -/
theorem uEscape_ascii (n : Nat) : isAsciiStr (uEscape n) = true := by
  rw [uEscape, isAsciiStr_append, Bool.and_eq_true]
  refine ⟨rfl, ?_⟩
  have hm : ∀ k : Nat, isAsciiChar (hexDigitChar (k % 16)) = true :=
    fun k => hexDigitChar_ascii (Nat.mod_lt _ (by omega))
  simp [isAsciiStr_mk, hm]

/-- Every escaped character is rendered as ASCII text. -/
theorem escapeChar_ascii (c : Char) : isAsciiStr (escapeChar c) = true := by
  unfold escapeChar
  repeat' split
  all_goals first
    | rfl
    | exact uEscape_ascii _
    | (rw [isAsciiStr_append, uEscape_ascii, uEscape_ascii]; rfl)
    | (simp only [isAsciiStr, show (String.singleton c).data = [c] from rfl, List.all_cons,
        List.all_nil, Bool.and_true, isAsciiChar, decide_eq_true_eq]
       omega)

/-- Left-folding string concatenation over ASCII strings stays ASCII. -/
theorem foldl_append_ascii :
    ∀ (l : List String) (acc : String), isAsciiStr acc = true →
      (∀ x ∈ l, isAsciiStr x = true) →
      isAsciiStr (l.foldl (fun r s => r ++ s) acc) = true := by
  intro l
  induction l with
  | nil => intro acc hacc _; exact hacc
  | cons a as ih =>
    intro acc hacc hall
    rw [List.foldl_cons]
    refine ih _ ?_ (fun x hx => hall x (List.mem_cons_of_mem _ hx))
    rw [isAsciiStr_append, hacc, hall a (List.mem_cons_self _ _)]
    rfl

/-- Joining ASCII strings yields an ASCII string. -/
theorem join_ascii (l : List String) (h : ∀ x ∈ l, isAsciiStr x = true) :
    isAsciiStr (String.join l) = true :=
  foldl_append_ascii l "" rfl h

/-- `json.dumps` of any string is ASCII (`ensure_ascii=True`). -/
theorem jsonQuote_ascii (s : String) : isAsciiStr (jsonQuote s) = true := by
  have hj : isAsciiStr (String.join (s.data.map escapeChar)) = true := by
    refine join_ascii _ ?_
    intro x hx
    obtain ⟨c, _, rfl⟩ := List.mem_map.1 hx
    exact escapeChar_ascii c
  rw [jsonQuote, isAsciiStr_append, isAsciiStr_append, hj]
  rfl

/-- Decimal digits are ASCII. -/
theorem digitChar_ascii {n : Nat} (h : n < 10) : isAsciiChar (Nat.digitChar n) = true := by
  interval_cases n <;> decide

/-- The digit expansion only prepends ASCII characters. -/
theorem toDigitsCore_ascii :
    ∀ (fuel n : Nat) (ds : List Char), ds.all isAsciiChar = true →
      (Nat.toDigitsCore 10 fuel n ds).all isAsciiChar = true := by
  intro fuel
  induction fuel with
  | zero => intro n ds h; exact h
  | succ fuel ih =>
    intro n ds h
    have hds : (Nat.digitChar (n % 10) :: ds).all isAsciiChar = true := by
      rw [List.all_cons, digitChar_ascii (Nat.mod_lt _ (by omega)), h]
      rfl
    simp only [Nat.toDigitsCore]
    split
    · exact hds
    · exact ih _ _ hds

/-- `Nat.repr` produces ASCII text. -/
theorem natRepr_ascii (n : Nat) : isAsciiStr (Nat.repr n) = true := by
  show ((Nat.toDigits 10 n).asString).data.all isAsciiChar = true
  rw [show ((Nat.toDigits 10 n).asString).data = Nat.toDigits 10 n from rfl, Nat.toDigits]
  exact toDigitsCore_ascii _ _ _ rfl

/-- `str(int)` produces ASCII text. -/
theorem intToString_ascii (n : Int) : isAsciiStr (toString n) = true := by
  cases n with
  | ofNat m =>
    show isAsciiStr (Nat.repr m) = true
    exact natRepr_ascii m
  | negSucc m =>
    show isAsciiStr ("-" ++ Nat.repr (m + 1)) = true
    rw [isAsciiStr_append, natRepr_ascii]
    rfl

/-- The worker of `String.intercalate` preserves ASCII-ness. -/
theorem intercalate_go_ascii (sep : String) (hsep : isAsciiStr sep = true) :
    ∀ (l : List String) (acc : String), isAsciiStr acc = true →
      (∀ x ∈ l, isAsciiStr x = true) →
      isAsciiStr (String.intercalate.go acc sep l) = true := by
  intro l
  induction l with
  | nil => intro acc hacc _; exact hacc
  | cons a as ih =>
    intro acc hacc hall
    rw [String.intercalate.go]
    refine ih _ ?_ (fun x hx => hall x (List.mem_cons_of_mem _ hx))
    rw [isAsciiStr_append, isAsciiStr_append, hacc, hsep, hall a (List.mem_cons_self _ _)]
    rfl

/-- Intercalating ASCII strings with an ASCII separator is ASCII. -/
theorem intercalate_ascii (sep : String) (hsep : isAsciiStr sep = true)
    (l : List String) (h : ∀ x ∈ l, isAsciiStr x = true) :
    isAsciiStr (String.intercalate sep l) = true := by
  cases l with
  | nil => rfl
  | cons a as =>
    rw [String.intercalate]
    exact intercalate_go_ascii sep hsep as a (h a (List.mem_cons_self _ _))
      (fun x hx => h x (List.mem_cons_of_mem _ hx))

/-- Serialised dict keys are ASCII. -/
theorem pyKeyJson_ascii : ∀ (k : PyKey) (s : String),
    pyKeyJson k = .ok s → isAsciiStr s = true := by
  intro k s h
  cases k with
  | kstr str =>
    have h2 : Except.ok (jsonQuote str) = Except.ok s := h
    injection h2 with h3
    subst h3
    exact jsonQuote_ascii str
  | kint n =>
    have h2 : Except.ok ("\"" ++ toString n ++ "\"") = Except.ok s := h
    injection h2 with h3
    subst h3
    rw [isAsciiStr_append, isAsciiStr_append, intToString_ascii]
    rfl
  | kbool b =>
    cases b with
    | true =>
      have h2 : Except.ok ("\"true\"" : String) = Except.ok s := h
      injection h2 with h3
      subst h3
      rfl
    | false =>
      have h2 : Except.ok ("\"false\"" : String) = Except.ok s := h
      injection h2 with h3
      subst h3
      rfl
  | knone =>
    have h2 : Except.ok ("\"null\"" : String) = Except.ok s := h
    injection h2 with h3
    subst h3
    rfl
  | kother typeName =>
    exact Except.noConfusion h

/-- The list case of `pyJsonDumps` as an explicit bind. -/
theorem pyJsonDumps_list_eq (xs : PyList) :
    pyJsonDumps (.pyList xs) = (pyJsonDumpsList xs).bind
      (fun items => .ok ("[" ++ String.intercalate ", " items ++ "]")) := rfl

/-- The dict case of `pyJsonDumps` as an explicit bind. -/
theorem pyJsonDumps_dict_eq (es : PyDict) :
    pyJsonDumps (.pyDict es) = (pyJsonDumpsDict es).bind
      (fun items => .ok ("\x7b" ++ String.intercalate ", " items ++ "\x7d")) := rfl

/-- The cons case of `pyJsonDumpsList` as explicit binds. -/
theorem pyJsonDumpsList_cons_eq (v : PyVal) (rest : PyList) :
    pyJsonDumpsList (.cons v rest) = (pyJsonDumps v).bind
      (fun s => (pyJsonDumpsList rest).bind (fun r => .ok (s :: r))) := rfl

/-- The cons case of `pyJsonDumpsDict` as explicit binds. -/
theorem pyJsonDumpsDict_cons_eq (k : PyKey) (v : PyVal) (rest : PyDict) :
    pyJsonDumpsDict (.cons k v rest) = (pyKeyJson k).bind
      (fun ks => (pyJsonDumps v).bind
        (fun vs => (pyJsonDumpsDict rest).bind
          (fun r => .ok ((ks ++ ": " ++ vs) :: r)))) := rfl

mutual
/-- `json.dumps(value, default=str)` only ever returns ASCII text: every
string is escaped under `ensure_ascii=True`, numbers and the literals are
ASCII, and containers are ASCII-joined ASCII pieces. -/
theorem pyJsonDumps_ascii : ∀ (v : PyVal) (s : String),
    pyJsonDumps v = .ok s → isAsciiStr s = true
  | .pyStr str, s, h => by
      have h2 : Except.ok (jsonQuote str) = Except.ok s := h
      injection h2 with h3
      subst h3
      exact jsonQuote_ascii str
  | .pyInt n, s, h => by
      have h2 : Except.ok (toString n) = Except.ok s := h
      injection h2 with h3
      subst h3
      exact intToString_ascii n
  | .pyBool b, s, h => by
      cases b with
      | true =>
        have h2 : Except.ok ("true" : String) = Except.ok s := h
        injection h2 with h3
        subst h3
        rfl
      | false =>
        have h2 : Except.ok ("false" : String) = Except.ok s := h
        injection h2 with h3
        subst h3
        rfl
  | .pyNone, s, h => by
      have h2 : Except.ok ("null" : String) = Except.ok s := h
      injection h2 with h3
      subst h3
      rfl
  | .pyList xs, s, h => by
      rw [pyJsonDumps_list_eq] at h
      cases hl : pyJsonDumpsList xs with
      | error e =>
        rw [hl] at h
        exact absurd h (by simp [Except.bind])
      | ok items =>
        rw [hl] at h
        have h2 : Except.ok ("[" ++ String.intercalate ", " items ++ "]")
            = Except.ok s := h
        injection h2 with h3
        subst h3
        rw [isAsciiStr_append, isAsciiStr_append,
          intercalate_ascii ", " rfl items (pyJsonDumpsList_ascii xs items hl)]
        rfl
  | .pyDict es, s, h => by
      rw [pyJsonDumps_dict_eq] at h
      cases hl : pyJsonDumpsDict es with
      | error e =>
        rw [hl] at h
        exact absurd h (by simp [Except.bind])
      | ok items =>
        rw [hl] at h
        have h2 : Except.ok ("\x7b" ++ String.intercalate ", " items ++ "\x7d")
            = Except.ok s := h
        injection h2 with h3
        subst h3
        rw [isAsciiStr_append, isAsciiStr_append,
          intercalate_ascii ", " rfl items (pyJsonDumpsDict_ascii es items hl)]
        rfl
  | .pyObj strForm, s, h => by
      have h2 : Except.ok (jsonQuote strForm) = Except.ok s := h
      injection h2 with h3
      subst h3
      exact jsonQuote_ascii strForm
/-- All serialised list elements are ASCII. -/
theorem pyJsonDumpsList_ascii : ∀ (xs : PyList) (items : List String),
    pyJsonDumpsList xs = .ok items → ∀ x ∈ items, isAsciiStr x = true
  | .nil, items, h => by
      have h2 : Except.ok ([] : List String) = Except.ok items := h
      injection h2 with h3
      subst h3
      intro x hx
      exact absurd hx (List.not_mem_nil x)
  | .cons v rest, items, h => by
      rw [pyJsonDumpsList_cons_eq] at h
      cases hv : pyJsonDumps v with
      | error e =>
        rw [hv] at h
        exact absurd h (by simp [Except.bind])
      | ok sv =>
        rw [hv] at h
        have h2 : (pyJsonDumpsList rest).bind (fun r => Except.ok (sv :: r))
            = .ok items := h
        cases hr : pyJsonDumpsList rest with
        | error e =>
          rw [hr] at h2
          exact absurd h2 (by simp [Except.bind])
        | ok r =>
          rw [hr] at h2
          have h3 : Except.ok (sv :: r) = Except.ok items := h2
          injection h3 with h4
          subst h4
          intro x hx
          rcases List.mem_cons.1 hx with rfl | hx2
          · exact pyJsonDumps_ascii v x hv
          · exact pyJsonDumpsList_ascii rest r hr x hx2
/-- All serialised dict members are ASCII. -/
theorem pyJsonDumpsDict_ascii : ∀ (es : PyDict) (items : List String),
    pyJsonDumpsDict es = .ok items → ∀ x ∈ items, isAsciiStr x = true
  | .nil, items, h => by
      have h2 : Except.ok ([] : List String) = Except.ok items := h
      injection h2 with h3
      subst h3
      intro x hx
      exact absurd hx (List.not_mem_nil x)
  | .cons k v rest, items, h => by
      rw [pyJsonDumpsDict_cons_eq] at h
      cases hk : pyKeyJson k with
      | error e =>
        rw [hk] at h
        exact absurd h (by simp [Except.bind])
      | ok ks =>
        rw [hk] at h
        have h2 : (pyJsonDumps v).bind
            (fun vs => (pyJsonDumpsDict rest).bind
              (fun r => Except.ok ((ks ++ ": " ++ vs) :: r))) = .ok items := h
        cases hv : pyJsonDumps v with
        | error e =>
          rw [hv] at h2
          exact absurd h2 (by simp [Except.bind])
        | ok vs =>
          rw [hv] at h2
          have h3 : (pyJsonDumpsDict rest).bind
              (fun r => Except.ok ((ks ++ ": " ++ vs) :: r)) = .ok items := h2
          cases hr : pyJsonDumpsDict rest with
          | error e =>
            rw [hr] at h3
            exact absurd h3 (by simp [Except.bind])
          | ok r =>
            rw [hr] at h3
            have h4 : Except.ok ((ks ++ ": " ++ vs) :: r) = Except.ok items := h3
            injection h4 with h5
            subst h5
            intro x hx
            rcases List.mem_cons.1 hx with rfl | hx2
            · rw [isAsciiStr_append, isAsciiStr_append, pyKeyJson_ascii k ks hk,
                pyJsonDumps_ascii v vs hv]
              rfl
            · exact pyJsonDumpsDict_ascii rest r hr x hx2
end

/-- When every remaining field key is ASCII, the loop's accumulator stays
ASCII: committed text is built from ASCII punctuation, the ASCII key and
the ASCII `json.dumps` output. -/
theorem emitLoop_ascii (mps : Int) (fields : List (String × PyVal)) :
    ∀ (packet : String) (first : Bool),
      (∀ kv ∈ fields, isAsciiStr (kv : String × PyVal).1 = true) →
      isAsciiStr packet = true →
      ∀ p b, emitLoop mps packet first fields = .ok (p, b) → isAsciiStr p = true := by
  induction fields with
  | nil =>
    intro packet first _ hp p b heq
    simp only [emitLoop] at heq
    cases heq
    exact hp
  | cons hd tl ih =>
    intro packet first hk hp p b heq
    obtain ⟨key, value⟩ := hd
    have hkey : isAsciiStr key = true := hk (key, value) (List.mem_cons_self _ _)
    have hktl : ∀ kv ∈ tl, isAsciiStr (kv : String × PyVal).1 = true :=
      fun kv hkv => hk kv (List.mem_cons_of_mem _ hkv)
    cases hdump : pyJsonDumps value with
    | error e => simp [emitLoop, hdump] at heq
    | ok vj =>
      have hvj : isAsciiStr vj = true := pyJsonDumps_ascii value vj hdump
      simp only [emitLoop, hdump] at heq
      split at heq
      case isTrue hc =>
        cases first with
        | true =>
          simp only [Bool.not_true, Bool.false_eq_true, if_false] at heq
          refine ih _ false hktl ?_ p b heq
          rw [isAsciiStr_append, isAsciiStr_append, isAsciiStr_append, isAsciiStr_append,
            hp, hkey, hvj, show isAsciiStr "\"" = true from rfl,
            show isAsciiStr "\":" = true from rfl]
          rfl
        | false =>
          simp only [Bool.not_false, if_true] at heq
          refine ih _ false hktl ?_ p b heq
          rw [isAsciiStr_append, isAsciiStr_append, isAsciiStr_append, isAsciiStr_append,
            hp, hkey, hvj, show isAsciiStr ",\"" = true from rfl,
            show isAsciiStr "\":" = true from rfl]
          rfl
      case isFalse hc =>
        split at heq
        · cases heq
          exact hp
        · exact ih _ _ hktl hp p b heq

/-- C1 (amended): for every record and every handler configuration with
`max_packet_size ≥ 3` whose generated field keys are all ASCII (the fixed
and debugging keys always are; extra-field keys are ASCII whenever the
record's attribute names are), the byte length of the emitted datagram —
`utf8Len`, the size of `packet.encode()` — is at most `max_packet_size`,
and so is the byte length of the accumulator after the loop has processed
any prefix of the generated fields.  Serialised values need no such
hypothesis: `json.dumps` output is ASCII (`pyJsonDumps_ascii`).  The
original claim fails for `max_packet_size < 3` and, because keys are
spliced into the packet raw, for non-ASCII attribute names, whose UTF-8
encoding outgrows the character count the source's bookkeeping uses; see
the counterexample. -/
theorem C1_packet_within_budget (cfg : Config) (r : LogRecord)
    (fqdnName hostname : String) (h3 : 3 ≤ cfg.max_packet_size)
    (hkeys : ∀ kv ∈ (generateFields cfg r fqdnName hostname).1,
        isAsciiStr (kv : String × PyVal).1 = true) :
    (∀ p, emit cfg r fqdnName hostname = .ok p →
        (utf8Len p : Int) ≤ cfg.max_packet_size) ∧
    (∀ i p b,
        emitLoop cfg.max_packet_size "\x7b" true
            ((generateFields cfg r fqdnName hostname).1.take i) = .ok (p, b) →
        (utf8Len p : Int) ≤ cfg.max_packet_size) := by
  have hinit : (("\x7b" : String).length : Int) + 2 ≤ cfg.max_packet_size := by
    have e1 : ("\x7b" : String).length = 1 := rfl
    rw [e1]
    omega
  have hascii0 : isAsciiStr "\x7b" = true := rfl
  constructor
  · intro p hp
    rw [emit_eq] at hp
    cases hloop : emitLoop cfg.max_packet_size "\x7b" true
        (generateFields cfg r fqdnName hostname).1 with
    | error e => rw [hloop] at hp; exact absurd hp (by simp)
    | ok pb =>
      obtain ⟨pk, broke⟩ := pb
      rw [hloop] at hp
      have hlen := emitLoop_length_le cfg.max_packet_size _ _ _ hinit pk broke hloop
      have hasc := emitLoop_ascii cfg.max_packet_size _ _ _ hkeys hascii0 pk broke hloop
      have hp2 : p = pk ++ "\x7d\n" := by
        cases broke with
        | true => simpa using hp.symm
        | false =>
          cases hgen : (generateFields cfg r fqdnName hostname).2 with
          | none => rw [hgen] at hp; simpa using hp.symm
          | some e => rw [hgen] at hp; exact absurd hp (by simp)
      subst hp2
      rw [utf8Len_append, utf8Len_of_ascii hasc, show utf8Len "\x7d\n" = 2 from rfl]
      push_cast
      push_cast at hlen
      omega
  · intro i p b hloop
    have hktk : ∀ kv ∈ (generateFields cfg r fqdnName hostname).1.take i,
        isAsciiStr (kv : String × PyVal).1 = true :=
      fun kv hkv => hkeys kv (List.take_subset _ _ hkv)
    have hlen := emitLoop_length_le cfg.max_packet_size _ _ _ hinit p b hloop
    have hasc := emitLoop_ascii cfg.max_packet_size _ _ _ hktk hascii0 p b hloop
    rw [utf8Len_of_ascii hasc]
    omega

set_option maxRecDepth 200000 in
/-- C1 counterexample: two ways the original claim fails on the program.
With `max_packet_size = 2` the handler still emits the three-byte packet
`"\x7b\x7d\n"`.  And with `max_packet_size = 173` and a record carrying an
extra attribute named `é` — reachable as
`logger.info("hi", extra=dict with key é)` — the key is spliced raw: the
source's `len(packet)` bookkeeping sees 173 characters, within budget, but
the datagram `packet.encode()` is 174 bytes, exceeding the budget even
though `max_packet_size ≥ 3`. -/
theorem C1_counterexample :
    (emit { cfgBase with max_packet_size := 2 } recBase "fq.example.com" "myhost"
        = .ok "\x7b\x7d\n" ∧ 2 < utf8Len "\x7b\x7d\n") ∧
    (emit { cfgBase with max_packet_size := 173 }
        { recBase with attrs := recBase.attrs ++ [("é", PyVal.pyInt 1)] }
        "fq.example.com" "myhost" = .ok nonAsciiKeyPacket ∧
      nonAsciiKeyPacket.length = 173 ∧ utf8Len nonAsciiKeyPacket = 174) :=
  ⟨⟨rfl, by decide⟩, ⟨rfl, rfl, by decide⟩⟩

set_option maxRecDepth 200000 in
/-- C1 witness: a 100-byte budget on `recBase`, whose field keys are all
ASCII, yields a datagram of at most 100 bytes. -/
theorem C1_witness :
    (3 : Int) ≤ (100 : Int) ∧
    ((utf8Len "\x7b\"@version\":\"1\",\"@fields\":\x7b\x7d,\"message\":\"hi\",\"logsource\":\"myhost\",\"severity\":20,\"level\":\"INFO\"\x7d\n" : Int) ≤ 100) :=
  ⟨by decide,
   (C1_packet_within_budget { cfgBase with max_packet_size := 100 } recBase
      "fq.example.com" "myhost" (by decide) (by decide)).1 _ rfl⟩
